import Mathlib

/-!
Shallow embedding of the Budget Tracker backend (`src/main.py`, `src/schemas.py`).

The backend stores three collections (categories, budgets, expenses) in a
document store and computes a monthly summary.  Python floats are modelled
by `ℚ`; a MongoDB document's generated `_id` (serialised by `str`) is a
`String` field `id`; Python `dict`s are association lists with insertion
order preserved and last-write-wins update, exactly as CPython dicts behave.
-/

set_option autoImplicit false

namespace BudgetTracker

/-- An allocation embedded in a budget (`schemas.py`, class `Allocation`):
`category_id` references a category, `target` is the monthly target. -/
structure Allocation where
  category_id : String
  target : ℚ
  deriving DecidableEq, Repr

/-- A budget document (`schemas.py`, class `Budget`): one per month,
with income and a list of allocations. -/
structure Budget where
  month : String
  income : ℚ
  allocations : List Allocation
  deriving DecidableEq, Repr

/-- A stored expense document.  The fields are those the endpoint
`add_expense` in `main.py` persists via `ExpenseCreate.model_dump()`;
`spent_on` is the field `schemas.py` declares for the collection, kept here
as `Option String` (ISO date) so that its absence in stored documents can be
stated. -/
structure Expense where
  month : String
  category_id : String
  amount : ℚ
  note : Option String
  spent_on : Option String
  deriving DecidableEq, Repr

/-- A category document (`schemas.py`, class `Category`) together with its
generated id (the `str` of the Mongo `_id`). -/
structure Category where
  id : String
  name : String
  emoji : Option String
  deriving DecidableEq, Repr

/-- The whole document store: the three collections used by the API. -/
structure DB where
  budgets : List Budget
  expenses : List Expense
  categories : List Category
  deriving DecidableEq, Repr

/-- The empty store. -/
def emptyDB : DB := { budgets := [], expenses := [], categories := [] }

/-! ### Python dict model -/

/-- `k in d` — membership test of a Python dict key. -/
def hasKey {α : Type} : List (String × α) → String → Bool
  | [], _ => false
  | p :: t, k => p.1 = k || hasKey t k

/-- `d[k] = v` on a CPython dict: if the key is present its value is
replaced in place (position kept), otherwise the pair is appended. -/
def dictInsert {α : Type} (m : List (String × α)) (k : String) (v : α) :
    List (String × α) :=
  if hasKey m k then m.map (fun p => if p.1 = k then (k, v) else p)
  else m ++ [(k, v)]

/-- `d.get(k, default)` on a Python dict (keys are unique in a dict built by
`dictInsert`, so reading the first occurrence is exact). -/
def dictGet {α : Type} : List (String × α) → String → α → α
  | [], _, d => d
  | p :: t, k, d => if p.1 = k then p.2 else dictGet t k d

/-- The key list of a dict. -/
def keys {α : Type} (m : List (String × α)) : List String :=
  m.map Prod.fst

/-! ### Store operations (`main.py`) -/

/-- `POST /api/categories`: inserts the category document; `cid` stands for
the store-generated `_id` serialised to a string. -/
def create_category (db : DB) (cid name : String) (emoji : Option String) : DB :=
  { db with categories := db.categories ++ [{ id := cid, name := name, emoji := emoji }] }

/-- Validation of one allocation in the request body: `schemas.Allocation`
declares `target: float = Field(..., ge=0)`. -/
def allocation_valid (a : Allocation) : Bool :=
  0 ≤ a.target

/-- Validation performed by the request model `BudgetCreate` in `main.py`:
`month: str`, `income: float` and `allocations: List[Allocation]` — only the
nested `Allocation.target ge=0` constraint applies; `income` carries no
constraint. -/
def budgetCreate_valid (b : Budget) : Bool :=
  b.allocations.all allocation_valid

/-- Validation the collection schema `schemas.Budget` declares:
`income: float = Field(..., ge=0)` plus the allocation constraints. -/
def schemas_budget_valid (b : Budget) : Bool :=
  decide (0 ≤ b.income) && b.allocations.all allocation_valid

/-- `POST /api/budgets` (`create_budget` in `main.py`): deletes every budget
with the given month (`delete_many`), then inserts the new document. -/
def create_budget (db : DB) (b : Budget) : DB :=
  { db with budgets := (db.budgets.filter (fun x => ¬ (x.month = b.month))) ++ [b] }

/-- `GET /api/budgets/{month}` / the budget lookup used by `summary`:
`find_one({"month": month})` returns the first stored match, if any. -/
def find_budget (db : DB) (month : String) : Option Budget :=
  db.budgets.find? (fun b => b.month = month)

/-- The request model `ExpenseCreate` in `main.py`: fields
`month`, `category_id`, `amount`, `note` — no `spent_on` field and no
constraint on `amount`. -/
structure ExpenseCreate where
  month : String
  category_id : String
  amount : ℚ
  note : Option String
  deriving DecidableEq, Repr

/-- Validation performed by `ExpenseCreate`: its fields carry no `Field`
constraints, so every well-typed body is accepted. -/
def expenseCreate_valid (_e : ExpenseCreate) : Bool :=
  true

/-- Validation the collection schema `schemas.Expense` declares:
`amount: float = Field(..., ge=0)`. -/
def schemas_expense_valid (e : Expense) : Bool :=
  0 ≤ e.amount

/-- `ExpenseCreate.model_dump()` as a stored document: the dumped dict has
no `spent_on` key, so the stored document's `spent_on` is absent (`none`). -/
def expenseCreate_dump (e : ExpenseCreate) : Expense :=
  { month := e.month, category_id := e.category_id, amount := e.amount,
    note := e.note, spent_on := none }

/-- `POST /api/expenses` (`add_expense` in `main.py`): pure append of the
dumped document. -/
def add_expense (db : DB) (e : ExpenseCreate) : DB :=
  { db with expenses := db.expenses ++ [expenseCreate_dump e] }

/-! ### The summary engine (`summary` in `main.py`) -/

/-- The loop building `allocations_map` in `summary`:
`for alloc in budget.allocations: allocations_map[category_id] = target`. -/
def allocations_map_of (allocs : List Allocation) : List (String × ℚ) :=
  allocs.foldl (fun m a => dictInsert m a.category_id a.target) []

/-- The `$group` aggregation summing `amount` by `category_id`, as a fold
over the matched expenses starting from an accumulator. -/
def spent_fold (es : List Expense) (acc : List (String × ℚ)) :
    List (String × ℚ) :=
  es.foldl (fun m e => dictInsert m e.category_id (dictGet m e.category_id 0 + e.amount)) acc

/-- `spent_by_cat` in `summary`: group the month's expenses by category,
summing amounts. -/
def spent_by_cat_of (db : DB) (month : String) : List (String × ℚ) :=
  spent_fold (db.expenses.filter (fun e => e.month = month)) []

/-- The dict `categories = str(_id) -> doc` built in `summary` from
`db["category"].find()`. -/
def categories_dict (cats : List Category) : List (String × Category) :=
  cats.foldl (fun m c => dictInsert m c.id c) []

/-- One element of `categories_summary`: id, name, emoji, target, spent and
`progress = spent / target * 100 if target > 0 else None`. -/
structure CategoryRow where
  id : String
  name : String
  emoji : Option String
  target : ℚ
  spent : ℚ
  progress : Option ℚ
  deriving DecidableEq, Repr

/-- The summary response object. -/
structure Summary where
  month : String
  income : ℚ
  total_target : ℚ
  total_spent : ℚ
  remaining : ℚ
  categories : List CategoryRow
  deriving DecidableEq, Repr

/-- The row built for one entry of the categories dict. -/
def mk_row (allocations_map spent_by_cat : List (String × ℚ))
    (p : String × Category) : CategoryRow :=
  let target := dictGet allocations_map p.1 0
  let spent := dictGet spent_by_cat p.1 0
  { id := p.1, name := p.2.name, emoji := p.2.emoji, target := target,
    spent := spent,
    progress := if 0 < target then some (spent / target * 100) else none }

/-- `GET /api/summary/{month}` (`summary` in `main.py`).  A missing budget
yields income 0 and an empty allocations map; the function is total, so the
endpoint never fails with 404. -/
def summary (db : DB) (month : String) : Summary :=
  let budget_doc := find_budget db month
  let income : ℚ := match budget_doc with | some b => b.income | none => 0
  let allocations_map : List (String × ℚ) :=
    match budget_doc with
    | some b => allocations_map_of b.allocations
    | none => []
  let spent_by_cat := spent_by_cat_of db month
  let cats := categories_dict db.categories
  { month := month
  , income := income
  , total_target := (allocations_map.map Prod.snd).sum
  , total_spent := (spent_by_cat.map Prod.snd).sum
  , remaining := max (income - (spent_by_cat.map Prod.snd).sum) 0
  , categories := cats.map (mk_row allocations_map spent_by_cat) }

/-! ### Concrete stores and requests used to instantiate the theorems -/

/-- The request body of a negative-income budget upsert. -/
def negBudget : Budget := { month := "2024-01", income := -100, allocations := [] }

/-- The request body of a negative-amount expense. -/
def negExpense : ExpenseCreate :=
  { month := "2024-01", category_id := "C1", amount := -5, note := none }

/-- The store produced by the end-to-end scenario of the spec: category
"Food" with id `C1`, a budget for 2024-01 with income 1000 and a target of
300 for `C1`, then expenses of 100 and 50 against `C1`. -/
def scenarioDB : DB :=
  add_expense
    (add_expense
      (create_budget
        (create_category emptyDB "C1" "Food" (some "🍔"))
        { month := "2024-01", income := 1000,
          allocations := [{ category_id := "C1", target := 300 }] })
      { month := "2024-01", category_id := "C1", amount := 100, note := none })
    { month := "2024-01", category_id := "C1", amount := 50, note := none }

/-- A store holding a single category and nothing else. -/
def dbW1 : DB := create_category emptyDB "C1" "Food" none

/-- The row `summary` emits for the category of `dbW1` when neither a budget
nor expenses exist. -/
def rowW1 : CategoryRow :=
  { id := "C1", name := "Food", emoji := none, target := 0, spent := 0,
    progress := none }

/-- A budget whose allocation list names the same category twice. -/
def bW5 : Budget :=
  { month := "2024-02", income := 500,
    allocations := [{ category_id := "C1", target := 100 },
                    { category_id := "C1", target := 250 }] }

/-- The last allocation of `bW5` for category "C1". -/
def aW5 : Allocation := { category_id := "C1", target := 250 }

/-- A store holding only the duplicate-allocation budget `bW5`. -/
def dbW5 : DB := create_budget emptyDB bW5

/-- An expense request whose `category_id` matches no category of `dbW1`. -/
def eW2 : ExpenseCreate :=
  { month := "2024-03", category_id := "X", amount := 7, note := none }

/-- A store with two categories of equal name and distinct ids. -/
def dbW10 : DB :=
  create_category (create_category emptyDB "A" "Food" none) "B" "Food" none

/-! ### Dict lemmas -/

theorem hasKey_eq_false_iff {α : Type} (m : List (String × α)) (k : String) :
    hasKey m k = false ↔ k ∉ keys m := by
  induction m with
  | nil => simp [hasKey, keys]
  | cons p t ih => simp [hasKey, keys, List.mem_map] at ih ⊢; tauto

theorem dictGet_of_hasKey_false {α : Type} (m : List (String × α)) (k : String)
    (d : α) (h : hasKey m k = false) : dictGet m k d = d := by
  induction m with
  | nil => rfl
  | cons p t ih =>
    simp only [hasKey, Bool.or_eq_false_iff, decide_eq_false_iff_not] at h
    simp [dictGet, h.1, ih h.2]

theorem dictGet_append {α : Type} (l₁ l₂ : List (String × α)) (k : String) (d : α) :
    dictGet (l₁ ++ l₂) k d = dictGet l₁ k (dictGet l₂ k d) := by
  induction l₁ with
  | nil => rfl
  | cons p t ih => by_cases hp : p.1 = k <;> simp [dictGet, hp, ih]

theorem dictGet_map_insert_self {α : Type} (m : List (String × α)) (k : String)
    (v d : α) (h : hasKey m k = true) :
    dictGet (m.map (fun q => if q.1 = k then (k, v) else q)) k d = v := by
  induction m with
  | nil => simp [hasKey] at h
  | cons p t ih =>
    by_cases hp : p.1 = k
    · simp [hp, dictGet]
    · have ht : hasKey t k = true := by simpa [hasKey, hp] using h
      simp [dictGet, hp, ih ht]

theorem dictGet_dictInsert_self {α : Type} (m : List (String × α)) (k : String)
    (v d : α) : dictGet (dictInsert m k v) k d = v := by
  by_cases h : hasKey m k = true
  · simp only [dictInsert, if_pos h]
    exact dictGet_map_insert_self m k v d h
  · simp only [dictInsert, if_neg h]
    rw [dictGet_append, dictGet_of_hasKey_false m k _ (by simpa using h)]
    simp [dictGet]

theorem dictGet_map_replace_ne {α : Type} (m : List (String × α)) (k k' : String)
    (v : α) (d : α) (h : k' ≠ k) :
    dictGet (m.map (fun q => if q.1 = k then (k, v) else q)) k' d = dictGet m k' d := by
  induction m with
  | nil => rfl
  | cons p t ih =>
    by_cases hp : p.1 = k
    · simp [hp, dictGet, Ne.symm h, ih]
    · simp only [List.map_cons, if_neg hp]
      simp [dictGet, ih]

theorem dictGet_dictInsert_ne {α : Type} (m : List (String × α)) (k k' : String)
    (v : α) (d : α) (h : k' ≠ k) :
    dictGet (dictInsert m k v) k' d = dictGet m k' d := by
  by_cases hk : hasKey m k = true
  · simp only [dictInsert, if_pos hk]
    exact dictGet_map_replace_ne m k k' v d h
  · simp only [dictInsert, if_neg hk]
    rw [dictGet_append]
    simp [dictGet, Ne.symm h]

theorem keys_map_replace {α : Type} (m : List (String × α)) (k : String) (v : α) :
    keys (m.map (fun q => if q.1 = k then (k, v) else q)) = keys m := by
  induction m with
  | nil => rfl
  | cons p t ih => by_cases hp : p.1 = k <;> simp [keys, hp] <;>
      simpa [keys] using ih

theorem keys_dictInsert_of_not_hasKey {α : Type} (m : List (String × α))
    (k : String) (v : α) (h : hasKey m k = false) :
    keys (dictInsert m k v) = keys m ++ [k] := by
  simp only [dictInsert, h]
  simp [keys]

theorem nodup_keys_dictInsert {α : Type} (m : List (String × α)) (k : String)
    (v : α) (h : (keys m).Nodup) : (keys (dictInsert m k v)).Nodup := by
  by_cases hk : hasKey m k = true
  · simpa only [dictInsert, if_pos hk, keys_map_replace] using h
  · have hk' : hasKey m k = false := by simpa using hk
    rw [keys_dictInsert_of_not_hasKey m k v hk']
    have : k ∉ keys m := (hasKey_eq_false_iff m k).1 hk'
    simp [List.nodup_append, h, this]

theorem mem_keys_dictInsert {α : Type} (m : List (String × α)) (k : String)
    (v : α) (x : String) (hx : x ∈ keys (dictInsert m k v)) :
    x = k ∨ x ∈ keys m := by
  by_cases hk : hasKey m k = true
  · right
    simpa only [dictInsert, if_pos hk, keys_map_replace] using hx
  · have hk' : hasKey m k = false := by simpa using hk
    rw [keys_dictInsert_of_not_hasKey m k v hk'] at hx
    simp at hx
    tauto

theorem dictInsert_cons_ne {α : Type} (p : String × α) (t : List (String × α))
    (k : String) (v : α) (h : ¬ p.1 = k) :
    dictInsert (p :: t) k v = p :: dictInsert t k v := by
  cases htk : hasKey t k with
  | true => simp [dictInsert, hasKey, h, htk]
  | false => simp [dictInsert, hasKey, h, htk]

theorem map_replace_of_not_mem {α : Type} (t : List (String × α)) (k : String)
    (v : α) (h : k ∉ keys t) :
    t.map (fun q => if q.1 = k then (k, v) else q) = t := by
  induction t with
  | nil => rfl
  | cons p t ih =>
    simp only [keys, List.map_cons, List.mem_cons] at h
    push_neg at h
    have hp : ¬ p.1 = k := fun hh => h.1 hh.symm
    simp [hp, ih (by simpa [keys] using h.2)]

theorem dictInsert_cons_self {α : Type} (p : String × α) (t : List (String × α))
    (k : String) (v : α) (hp : p.1 = k) (h : k ∉ keys t) :
    dictInsert (p :: t) k v = (k, v) :: t := by
  have hk : hasKey (p :: t) k = true := by simp [hasKey, hp]
  simp [dictInsert, hk, hp, map_replace_of_not_mem t k v h]

theorem sum_values_dictInsert_add (m : List (String × ℚ)) (k : String) (a : ℚ)
    (h : (keys m).Nodup) :
    ((dictInsert m k (dictGet m k 0 + a)).map Prod.snd).sum
      = (m.map Prod.snd).sum + a := by
  induction m with
  | nil => simp [dictInsert, hasKey, dictGet]
  | cons p t ih =>
    have hco := List.nodup_cons.1 (show (p.1 :: keys t).Nodup from h)
    have h1 : (keys t).Nodup := hco.2
    have h2 : p.1 ∉ keys t := hco.1
    by_cases hp : p.1 = k
    · rw [dictInsert_cons_self p t k _ hp (hp ▸ h2)]
      simp [dictGet, hp]
      ring
    · rw [dictInsert_cons_ne p t k _ hp]
      have hg : dictGet (p :: t) k 0 = dictGet t k 0 := by simp [dictGet, hp]
      rw [hg]
      simp only [List.map_cons, List.sum_cons]
      rw [ih h1]
      ring

/-! ### Fold lemmas for the summary engine -/

theorem spent_fold_cons (e : Expense) (es : List Expense)
    (acc : List (String × ℚ)) :
    spent_fold (e :: es) acc
      = spent_fold es
          (dictInsert acc e.category_id (dictGet acc e.category_id 0 + e.amount)) := rfl

theorem nodup_keys_spent_fold (es : List Expense) (acc : List (String × ℚ))
    (h : (keys acc).Nodup) : (keys (spent_fold es acc)).Nodup := by
  induction es generalizing acc with
  | nil => exact h
  | cons e es ih => exact ih _ (nodup_keys_dictInsert _ _ _ h)

theorem sum_spent_fold (es : List Expense) (acc : List (String × ℚ))
    (h : (keys acc).Nodup) :
    ((spent_fold es acc).map Prod.snd).sum
      = (acc.map Prod.snd).sum + (es.map Expense.amount).sum := by
  induction es generalizing acc with
  | nil => simp [spent_fold]
  | cons e es ih =>
    rw [spent_fold_cons, ih _ (nodup_keys_dictInsert _ _ _ h),
      sum_values_dictInsert_add _ _ _ h]
    simp
    ring

theorem foldl_dictInsert_fresh {α β : Type} (key : β → String) (val : β → α)
    (l : List β) (acc : List (String × α))
    (hnodup : (l.map key).Nodup)
    (hfresh : ∀ x ∈ l, key x ∉ keys acc) :
    l.foldl (fun m x => dictInsert m (key x) (val x)) acc
      = acc ++ l.map (fun x => (key x, val x)) := by
  induction l generalizing acc with
  | nil => simp
  | cons x t ih =>
    have hnd := List.nodup_cons.1 (show (key x :: t.map key).Nodup from hnodup)
    have hx : hasKey acc (key x) = false :=
      (hasKey_eq_false_iff acc (key x)).2 (hfresh x (List.mem_cons_self x t))
    have hins : dictInsert acc (key x) (val x) = acc ++ [(key x, val x)] := by
      simp [dictInsert, hx]
    have hfresh2 : ∀ y ∈ t, key y ∉ keys (acc ++ [(key x, val x)]) := by
      intro y hy
      have hky : key y ∈ t.map key := List.mem_map.2 ⟨y, hy, rfl⟩
      have hy1 : key y ∉ keys acc := hfresh y (List.mem_cons_of_mem x hy)
      have hy2 : ¬ key y = key x := fun hh => hnd.1 (hh ▸ hky)
      simp only [keys, List.map_append, List.map_cons, List.map_nil,
        List.mem_append, List.mem_singleton]
      push_neg
      exact ⟨by simpa [keys] using hy1, hy2⟩
    rw [List.foldl_cons, hins, ih _ hnd.2 hfresh2]
    simp

theorem mem_keys_foldl_dictInsert {α β : Type} (key : β → String) (val : β → α)
    (l : List β) (acc : List (String × α)) (x : String)
    (hx : x ∈ keys (l.foldl (fun m y => dictInsert m (key y) (val y)) acc)) :
    x ∈ keys acc ∨ x ∈ l.map key := by
  induction l generalizing acc with
  | nil => exact Or.inl hx
  | cons y t ih =>
    rw [List.foldl_cons] at hx
    rcases ih _ hx with h | h
    · rcases mem_keys_dictInsert _ _ _ _ h with h2 | h2
      · right
        simp [h2]
      · left
        exact h2
    · right
      simp [h]

/-! ### Characterisations of the summary fields -/

theorem mk_row_id (A S : List (String × ℚ)) (p : String × Category) :
    (mk_row A S p).id = p.1 := rfl

theorem mk_row_target (A S : List (String × ℚ)) (p : String × Category) :
    (mk_row A S p).target = dictGet A p.1 0 := rfl

theorem mk_row_spent (A S : List (String × ℚ)) (p : String × Category) :
    (mk_row A S p).spent = dictGet S p.1 0 := rfl

theorem mk_row_progress (A S : List (String × ℚ)) (p : String × Category) :
    (mk_row A S p).progress
      = if 0 < dictGet A p.1 0 then
          some (dictGet S p.1 0 / dictGet A p.1 0 * 100)
        else none := rfl

theorem summary_of_budget_none (db : DB) (m : String)
    (h : find_budget db m = none) :
    summary db m =
      { month := m, income := 0, total_target := 0,
        total_spent := ((spent_by_cat_of db m).map Prod.snd).sum,
        remaining := max (0 - ((spent_by_cat_of db m).map Prod.snd).sum) 0,
        categories := (categories_dict db.categories).map
          (mk_row [] (spent_by_cat_of db m)) } := by
  simp [summary, h]

theorem summary_of_budget_some (db : DB) (m : String) (b : Budget)
    (h : find_budget db m = some b) :
    summary db m =
      { month := m, income := b.income,
        total_target := ((allocations_map_of b.allocations).map Prod.snd).sum,
        total_spent := ((spent_by_cat_of db m).map Prod.snd).sum,
        remaining := max (b.income - ((spent_by_cat_of db m).map Prod.snd).sum) 0,
        categories := (categories_dict db.categories).map
          (mk_row (allocations_map_of b.allocations) (spent_by_cat_of db m)) } := by
  simp [summary, h]

theorem summary_total_spent_eq (db : DB) (m : String) :
    (summary db m).total_spent
      = ((db.expenses.filter (fun x => x.month = m)).map Expense.amount).sum := by
  show ((spent_by_cat_of db m).map Prod.snd).sum = _
  rw [spent_by_cat_of, sum_spent_fold _ _ (by simp [keys])]
  simp

theorem allocations_map_of_eq (allocs : List Allocation)
    (h : (allocs.map Allocation.category_id).Nodup) :
    allocations_map_of allocs
      = allocs.map (fun a => (a.category_id, a.target)) := by
  have hfold := foldl_dictInsert_fresh Allocation.category_id Allocation.target
    allocs [] h (by intro x _; simp [keys])
  simpa [allocations_map_of] using hfold

theorem categories_dict_eq (cats : List Category)
    (h : (cats.map Category.id).Nodup) :
    categories_dict cats = cats.map (fun c => (c.id, c)) := by
  have hfold := foldl_dictInsert_fresh Category.id (fun c => c) cats [] h
    (by intro x _; simp [keys])
  simpa [categories_dict] using hfold

theorem mem_keys_categories_dict (cats : List Category) (x : String)
    (hx : x ∈ keys (categories_dict cats)) : x ∈ cats.map Category.id := by
  have hm := mem_keys_foldl_dictInsert Category.id (fun c => c) cats [] x hx
  simpa [keys] using hm

theorem row_mem_summary (db : DB) (m : String) (r : CategoryRow)
    (hr : r ∈ (summary db m).categories) :
    ∃ A S p, p ∈ categories_dict db.categories ∧ r = mk_row A S p := by
  cases hb : find_budget db m with
  | none =>
    rw [summary_of_budget_none db m hb] at hr
    obtain ⟨p, hp, hpr⟩ := List.mem_map.1 hr
    exact ⟨_, _, p, hp, hpr.symm⟩
  | some b =>
    rw [summary_of_budget_some db m b hb] at hr
    obtain ⟨p, hp, hpr⟩ := List.mem_map.1 hr
    exact ⟨_, _, p, hp, hpr.symm⟩

theorem row_id_mem_category_ids (db : DB) (m : String) (r : CategoryRow)
    (hr : r ∈ (summary db m).categories) :
    r.id ∈ db.categories.map Category.id := by
  obtain ⟨A, S, p, hp, rfl⟩ := row_mem_summary db m r hr
  rw [mk_row_id]
  exact mem_keys_categories_dict db.categories p.1 (List.mem_map.2 ⟨p, hp, rfl⟩)

theorem dictGet_alloc_fold (allocs : List Allocation) (acc : List (String × ℚ))
    (c : String) (d : ℚ) :
    dictGet (allocs.foldl (fun m a => dictInsert m a.category_id a.target) acc) c d
      = match allocs.reverse.find? (fun x => x.category_id = c) with
        | some a => a.target
        | none => dictGet acc c d := by
  induction allocs generalizing acc with
  | nil => simp
  | cons a t ih =>
    rw [List.foldl_cons, ih, List.reverse_cons, List.find?_append]
    cases hf : t.reverse.find? (fun x => decide (x.category_id = c)) with
    | some b => simp [Option.or]
    | none =>
      simp only [Option.none_or]
      by_cases hc : a.category_id = c
      · rw [List.find?_cons_of_pos _ (by simpa using hc)]
        simp only
        rw [← hc]
        exact dictGet_dictInsert_self acc a.category_id a.target d
      · rw [List.find?_cons_of_neg _ (by simpa using hc), List.find?_nil]
        simp only
        exact dictGet_dictInsert_ne acc a.category_id c a.target d
          (fun hh => hc hh.symm)

/-! ### Claim theorems -/

/-- C4: for every month, `remaining` equals `max(income - total_spent, 0)`
and is never negative, even when `total_spent` exceeds `income`. -/
theorem remaining_eq_clamped_and_nonneg (db : DB) (m : String) :
    (summary db m).remaining =
      max ((summary db m).income - (summary db m).total_spent) 0 ∧
    0 ≤ (summary db m).remaining := by
  exact ⟨rfl, le_max_right _ _⟩

/-- C6: after any call to the budget upsert for month `b.month`, the stored
budgets for that month are exactly `[b]`: the upsert deletes all existing
budgets for the month before inserting the new document, so a second upsert
for the same month leaves exactly the second call's record. -/
theorem create_budget_upsert_unique (db : DB) (b : Budget) :
    (create_budget db b).budgets.filter (fun x => x.month = b.month) = [b] := by
  simp only [create_budget, List.filter_append, List.filter_filter]
  have h1 : ∀ l : List Budget,
      l.filter (fun x => decide (x.month = b.month) && decide (¬ x.month = b.month)) = [] := by
    intro l
    apply List.filter_eq_nil_iff.2
    intro a _
    by_cases h : a.month = b.month <;> simp [h]
  rw [h1]
  simp

/-- C7: the endpoint's request model `BudgetCreate` accepts a negative
income (it lacks the `ge=0` constraint that `schemas.Budget` declares), and
`create_budget` persists the invalid document, so the stored invariant
`income ≥ 0` fails. -/
theorem budget_negative_income_persisted :
    budgetCreate_valid negBudget = true ∧
    schemas_budget_valid negBudget = false ∧
    (create_budget emptyDB negBudget).budgets = [negBudget] ∧
    ∀ b ∈ (create_budget emptyDB negBudget).budgets, b.income < 0 := by
  refine ⟨rfl, by decide, rfl, ?_⟩
  intro b hb
  simp only [create_budget, emptyDB, List.filter_nil, List.nil_append,
    List.mem_singleton] at hb
  rw [hb]
  decide

/-- C8: the endpoint's request model `ExpenseCreate` has no `spent_on` field
(the stored document's `spent_on` is always absent) and carries no
constraint on `amount` (unlike `schemas.Expense`'s `ge=0`), so a
negative-amount expense is accepted and appended as given. -/
theorem expense_endpoint_divergence :
    (∀ e : ExpenseCreate,
        expenseCreate_valid e = true ∧ (expenseCreate_dump e).spent_on = none) ∧
    expenseCreate_valid negExpense = true ∧
    schemas_expense_valid (expenseCreate_dump negExpense) = false ∧
    (add_expense emptyDB negExpense).expenses = [expenseCreate_dump negExpense] := by
  exact ⟨fun e => ⟨rfl, rfl⟩, rfl, by decide, rfl⟩

/-- C9: the end-to-end scenario: `summarize("2024-01")` on `scenarioDB`
returns income 1000, total_target 300, total_spent 150, remaining 850, and
the single row for "Food" with target 300, spent 150, progress 50. -/
theorem summary_scenario :
    summary scenarioDB "2024-01" =
      { month := "2024-01", income := 1000, total_target := 300,
        total_spent := 150, remaining := 850,
        categories := [{ id := "C1", name := "Food", emoji := some "🍔",
                         target := 300, spent := 150, progress := some 50 }] } := by
  norm_num [summary, scenarioDB, add_expense, create_budget, create_category,
    emptyDB, find_budget, allocations_map_of, spent_by_cat_of, spent_fold,
    categories_dict, dictInsert, dictGet, hasKey, mk_row, expenseCreate_dump]

/-- C1: for every month with no Budget record, `summary` does not fail: it
returns a Summary with income 0, every category row's target 0 and progress
absent in every row (`summary` is a total function, so the endpoint never
returns 404). -/
theorem summary_no_budget (db : DB) (m : String)
    (h : find_budget db m = none) :
    (summary db m).income = 0 ∧
    ∀ r ∈ (summary db m).categories, r.target = 0 ∧ r.progress = none := by
  rw [summary_of_budget_none db m h]
  refine ⟨rfl, ?_⟩
  intro r hr
  obtain ⟨p, hp, hrp⟩ := List.mem_map.1 hr
  subst hrp
  refine ⟨?_, ?_⟩
  · simp [mk_row_target, dictGet]
  · simp [mk_row_progress, dictGet]

/-- Witness for C1: the store `dbW1` has a category but no budget for
2024-01, and the theorem's conclusion holds there. -/
theorem summary_no_budget_witness :
    find_budget dbW1 "2024-01" = none ∧
    ((summary dbW1 "2024-01").income = 0 ∧
      ∀ r ∈ (summary dbW1 "2024-01").categories,
        r.target = 0 ∧ r.progress = none) :=
  ⟨rfl, summary_no_budget dbW1 "2024-01" rfl⟩

/-- C3: for every category row emitted by `summary`: if the row's target is
positive then progress is `spent / target * 100`, and if the target is zero
then progress is absent, regardless of spent — the division is guarded by
`target > 0`. -/
theorem progress_division_guarded (db : DB) (m : String) :
    ∀ r ∈ (summary db m).categories,
      (0 < r.target → r.progress = some (r.spent / r.target * 100)) ∧
      (r.target = 0 → r.progress = none) := by
  intro r hr
  obtain ⟨A, S, p, hp, rfl⟩ := row_mem_summary db m r hr
  constructor
  · intro h
    rw [mk_row_target] at h
    rw [mk_row_progress, mk_row_target, mk_row_spent, if_pos h]
  · intro h
    rw [mk_row_target] at h
    rw [mk_row_progress, h]
    simp

/-- Witness for C3: the single row of `summary dbW1 "2024-01"` (target 0,
spent 0) satisfies both implications. -/
theorem progress_division_guarded_witness :
    rowW1 ∈ (summary dbW1 "2024-01").categories ∧
    ((0 < rowW1.target → rowW1.progress = some (rowW1.spent / rowW1.target * 100)) ∧
     (rowW1.target = 0 → rowW1.progress = none)) :=
  ⟨by decide, progress_division_guarded dbW1 "2024-01" rowW1 (by decide)⟩

/-- C2: `total_spent` is the sum of all per-category expense totals of the
month, orphan expenses included: it equals the sum of amounts of all stored
expenses of the month; appending an expense whose `category_id` matches no
category still increases `total_spent` by its amount while no row carries
its `category_id`; and (for duplicate-free allocation lists) `total_target`
sums every allocation target, though rows exist only for stored
categories. -/
theorem total_spent_counts_orphans (db : DB) (m : String) (e : ExpenseCreate)
    (hm : e.month = m)
    (horphan : ∀ c ∈ db.categories, c.id ≠ e.category_id) :
    (summary db m).total_spent
        = ((db.expenses.filter (fun x => x.month = m)).map Expense.amount).sum ∧
    (summary (add_expense db e) m).total_spent
        = (summary db m).total_spent + e.amount ∧
    (∀ r ∈ (summary (add_expense db e) m).categories, r.id ≠ e.category_id) ∧
    (∀ b : Budget, find_budget db m = some b →
        (b.allocations.map Allocation.category_id).Nodup →
        (summary db m).total_target = (b.allocations.map Allocation.target).sum) := by
  have hfilter : (add_expense db e).expenses.filter (fun x => x.month = m)
      = db.expenses.filter (fun x => x.month = m) ++ [expenseCreate_dump e] := by
    show (db.expenses ++ [expenseCreate_dump e]).filter _ = _
    rw [List.filter_append]
    congr 1
    simp [expenseCreate_dump, hm]
  refine ⟨summary_total_spent_eq db m, ?_, ?_, ?_⟩
  · rw [summary_total_spent_eq, summary_total_spent_eq, hfilter]
    simp [expenseCreate_dump]
  · intro r hr
    have hmem : r.id ∈ (add_expense db e).categories.map Category.id :=
      row_id_mem_category_ids (add_expense db e) m r hr
    obtain ⟨c, hc, hcr⟩ := List.mem_map.1 hmem
    have : c ∈ db.categories := hc
    intro hre
    exact horphan c this (hcr.trans hre)
  · intro b hb hnodup
    rw [summary_of_budget_some db m b hb]
    show ((allocations_map_of b.allocations).map Prod.snd).sum = _
    rw [allocations_map_of_eq b.allocations hnodup, List.map_map]
    congr 1

/-- Witness for C2: `eW2` is an expense for 2024-03 whose category "X"
matches no category of `dbW1`. -/
theorem total_spent_counts_orphans_witness :
    eW2.month = "2024-03" ∧
    (∀ c ∈ dbW1.categories, c.id ≠ eW2.category_id) ∧
    ((summary dbW1 "2024-03").total_spent
        = ((dbW1.expenses.filter (fun x => x.month = "2024-03")).map Expense.amount).sum ∧
     (summary (add_expense dbW1 eW2) "2024-03").total_spent
        = (summary dbW1 "2024-03").total_spent + eW2.amount ∧
     (∀ r ∈ (summary (add_expense dbW1 eW2) "2024-03").categories,
        r.id ≠ eW2.category_id) ∧
     (∀ b : Budget, find_budget dbW1 "2024-03" = some b →
        (b.allocations.map Allocation.category_id).Nodup →
        (summary dbW1 "2024-03").total_target
          = (b.allocations.map Allocation.target).sum)) :=
  ⟨rfl, by decide, total_spent_counts_orphans dbW1 "2024-03" eW2 rfl (by decide)⟩

/-- C5: when the stored budget's allocation list repeats a `category_id`,
the allocations map is built last-write-wins: the target used for that
category — both the map entry feeding `total_target` and the `target` of
the category's row — is the target of the last allocation in list order
with that `category_id`. -/
theorem allocations_last_write_wins (db : DB) (m c : String) (b : Budget)
    (a : Allocation) (hb : find_budget db m = some b)
    (ha : b.allocations.reverse.find? (fun x => x.category_id = c) = some a) :
    dictGet (allocations_map_of b.allocations) c 0 = a.target ∧
    ∀ r ∈ (summary db m).categories, r.id = c → r.target = a.target := by
  have h1 : dictGet (allocations_map_of b.allocations) c 0 = a.target := by
    rw [allocations_map_of, dictGet_alloc_fold b.allocations [] c 0, ha]
  refine ⟨h1, ?_⟩
  intro r hr hrc
  rw [summary_of_budget_some db m b hb] at hr
  obtain ⟨p, hp, hpr⟩ := List.mem_map.1 hr
  subst hpr
  rw [mk_row_id] at hrc
  rw [mk_row_target, hrc, h1]

/-- Witness for C5: in `dbW5` the budget for 2024-02 allocates to "C1"
twice (targets 100 then 250); the target used is 250, that of the last
allocation. -/
theorem allocations_last_write_wins_witness :
    find_budget dbW5 "2024-02" = some bW5 ∧
    bW5.allocations.reverse.find? (fun x => x.category_id = "C1") = some aW5 ∧
    (dictGet (allocations_map_of bW5.allocations) "C1" 0 = aW5.target ∧
     ∀ r ∈ (summary dbW5 "2024-02").categories,
        r.id = "C1" → r.target = aW5.target) :=
  ⟨by decide, by decide,
    allocations_last_write_wins dbW5 "2024-02" "C1" bW5 aW5 (by decide) (by decide)⟩

/-- C10: for every month, the rows of `summary` correspond exactly to the
stored categories: the list of row ids equals the list of category ids (so
there are no duplicates and no omissions, independent of expenses and
allocations, and equal-named categories keep distinct rows), provided the
store's generated category ids are distinct, which the document store's
primary key guarantees. -/
theorem summary_rows_match_categories (db : DB) (m : String)
    (h : (db.categories.map Category.id).Nodup) :
    (summary db m).categories.map CategoryRow.id = db.categories.map Category.id ∧
    ((summary db m).categories.map CategoryRow.id).Nodup := by
  have key : (summary db m).categories.map CategoryRow.id
      = db.categories.map Category.id := by
    have hc := categories_dict_eq db.categories h
    cases hb : find_budget db m with
    | none =>
      rw [summary_of_budget_none db m hb]
      show ((categories_dict db.categories).map _).map CategoryRow.id = _
      rw [hc]
      simp [List.map_map, Function.comp, mk_row_id]
    | some b =>
      rw [summary_of_budget_some db m b hb]
      show ((categories_dict db.categories).map _).map CategoryRow.id = _
      rw [hc]
      simp [List.map_map, Function.comp, mk_row_id]
  exact ⟨key, key ▸ h⟩

/-- Witness for C10: `dbW10` stores two categories both named "Food" with
distinct ids "A" and "B"; the summary rows' ids are exactly ["A", "B"]. -/
theorem summary_rows_match_categories_witness :
    (dbW10.categories.map Category.id).Nodup ∧
    ((summary dbW10 "2024-05").categories.map CategoryRow.id
        = dbW10.categories.map Category.id ∧
     ((summary dbW10 "2024-05").categories.map CategoryRow.id).Nodup) :=
  ⟨by decide, summary_rows_match_categories dbW10 "2024-05" (by decide)⟩

end BudgetTracker
